import Mathlib

set_option maxHeartbeats 1000000

/-!
Shallow embedding of `src/Exercises/exercise/practice/models.py`.

The file declares three entity pairs against the Django ORM
(Department/Employee, Product/Description, Student/Course) and three
module-level querysets (`employees`, `product_description`, `students`).
Rows are embedded as structures keyed by an integer primary key; the
persisted database is a `DBState` holding one list per table (plus the
implicit many-to-many join table for `Course.students`).  The framework
semantics that the declarations invoke (cascade deletion, foreign-key
enforcement, `select_related` / `prefetch_related` evaluation, the field
constructors' accepted keyword arguments) are not part of the repository;
they are modelled from the spec, and each such definition says so in its
doc comment.
-/

namespace PracticeModels

/-- Row of the Department model (models.py lines 3-4): a single
CharField called `department`. -/
structure Department where
  id : Nat
  department : String
  deriving DecidableEq

/-- Row of the Employee model (models.py lines 5-7): `employee_name` and a
non-null foreign key to Department with `on_delete=CASCADE`; the stored
column is the referenced Department's primary key. -/
structure Employee where
  id : Nat
  employee_name : String
  department_id : Nat
  deriving DecidableEq

/-- Row of the Product model (models.py lines 11-12). -/
structure Product where
  id : Nat
  name : String
  deriving DecidableEq

/-- Row of the Description model (models.py lines 13-15): a TextField and a
OneToOneField to Product with `on_delete=CASCADE`; the stored column is the
referenced Product's primary key, constrained unique. -/
structure Description where
  id : Nat
  description : String
  product_id : Nat
  deriving DecidableEq

/-- Row of the Student model (models.py lines 20-21). -/
structure Student where
  id : Nat
  name : String
  deriving DecidableEq

/-- Row of the Course model (models.py lines 22-24); the many-to-many link
to Student lives in the separate join table `course_students`. -/
structure Course where
  id : Nat
  name : String
  deriving DecidableEq

/-- The persisted database: one list of rows per declared model, plus the
implicit join table of (course id, student id) pairs backing
`Course.students`. -/
structure DBState where
  departments : List Department
  employees : List Employee
  products : List Product
  descriptions : List Description
  students : List Student
  courses : List Course
  course_students : List (Nat × Nat)
  deriving DecidableEq

/-- The empty database, before any row is persisted. -/
def emptyDB : DBState := ⟨[], [], [], [], [], [], []⟩

/-- Modelled from the spec: row creation through the framework persistence
layer (§3 lifecycle); the database rejects a duplicate primary key, in
which case the state is unchanged. -/
def insertDepartment (d : Department) (s : DBState) : DBState :=
  if ∀ x ∈ s.departments, x.id ≠ d.id then
    { s with departments := d :: s.departments }
  else s

/-- Modelled from the spec: creating an Employee; the non-null foreign key
of models.py line 7 must reference an existing Department, and the primary
key must be fresh, otherwise the database rejects the row. -/
def insertEmployee (e : Employee) (s : DBState) : DBState :=
  if (∀ x ∈ s.employees, x.id ≠ e.id) ∧ (∃ d ∈ s.departments, d.id = e.department_id) then
    { s with employees := e :: s.employees }
  else s

/-- Modelled from the spec: deleting a Department; `on_delete=CASCADE` on
`Employee.department` (models.py line 7) also deletes every Employee whose
foreign key references it. -/
def deleteDepartment (did : Nat) (s : DBState) : DBState :=
  { s with departments := s.departments.filter (fun d => d.id != did),
           employees := s.employees.filter (fun e => e.department_id != did) }

/-- Modelled from the spec: deleting an Employee removes only that row; no
declaration makes anything cascade from an Employee. -/
def deleteEmployee (eid : Nat) (s : DBState) : DBState :=
  { s with employees := s.employees.filter (fun e => e.id != eid) }

/-- Modelled from the spec: creating a Product (fresh primary key). -/
def insertProduct (p : Product) (s : DBState) : DBState :=
  if ∀ x ∈ s.products, x.id ≠ p.id then
    { s with products := p :: s.products }
  else s

/-- Modelled from the spec: creating a Description; the one-to-one key of
models.py line 15 must reference an existing Product and be unique among
Descriptions (the OneToOneField unique constraint), and the primary key
must be fresh. -/
def insertDescription (d : Description) (s : DBState) : DBState :=
  if (∀ x ∈ s.descriptions, x.id ≠ d.id) ∧ (∃ p ∈ s.products, p.id = d.product_id)
      ∧ (∀ x ∈ s.descriptions, x.product_id ≠ d.product_id) then
    { s with descriptions := d :: s.descriptions }
  else s

/-- Modelled from the spec: deleting a Product; `on_delete=CASCADE` on
`Description.product` (models.py line 15) also deletes the Description
referencing it. -/
def deleteProduct (pid : Nat) (s : DBState) : DBState :=
  { s with products := s.products.filter (fun p => p.id != pid),
           descriptions := s.descriptions.filter (fun d => d.product_id != pid) }

/-- Modelled from the spec: deleting a Description removes only that row;
the cascade of models.py line 15 acts from Product to Description, and no
declaration cascades in the other direction. -/
def deleteDescription (did : Nat) (s : DBState) : DBState :=
  { s with descriptions := s.descriptions.filter (fun d => d.id != did) }

/-- Modelled from the spec: creating a Student (fresh primary key). -/
def insertStudent (st : Student) (s : DBState) : DBState :=
  if ∀ x ∈ s.students, x.id ≠ st.id then
    { s with students := st :: s.students }
  else s

/-- Modelled from the spec: creating a Course (fresh primary key). -/
def insertCourse (c : Course) (s : DBState) : DBState :=
  if ∀ x ∈ s.courses, x.id ≠ c.id then
    { s with courses := c :: s.courses }
  else s

/-- Modelled from the spec: deleting a Student also deletes its join rows
(the association has no identity beyond the pairing, §3). -/
def deleteStudent (sid : Nat) (s : DBState) : DBState :=
  { s with students := s.students.filter (fun st => st.id != sid),
           course_students := s.course_students.filter (fun pr => pr.snd != sid) }

/-- Modelled from the spec: deleting a Course also deletes its join rows. -/
def deleteCourse (cid : Nat) (s : DBState) : DBState :=
  { s with courses := s.courses.filter (fun c => c.id != cid),
           course_students := s.course_students.filter (fun pr => pr.fst != cid) }

/-- Modelled from the spec: adding a Student to a Course's many-to-many
set; both rows must exist, and the join relation stores each pairing at
most once (adding an already present pairing changes nothing). -/
def addCourseStudent (cid sid : Nat) (s : DBState) : DBState :=
  if (∃ c ∈ s.courses, c.id = cid) ∧ (∃ st ∈ s.students, st.id = sid)
      ∧ (cid, sid) ∉ s.course_students then
    { s with course_students := (cid, sid) :: s.course_students }
  else s

/-- Modelled from the spec: removing a pairing from the join relation. -/
def removeCourseStudent (cid sid : Nat) (s : DBState) : DBState :=
  { s with course_students := s.course_students.filter (fun pr => pr != (cid, sid)) }

/-- Reachable persisted states: whatever can be produced from the empty
database by the create/delete/associate operations the framework exposes
for these models. -/
inductive Reachable : DBState → Prop where
  | init : Reachable emptyDB
  | insDept (d : Department) {s : DBState} : Reachable s → Reachable (insertDepartment d s)
  | insEmp (e : Employee) {s : DBState} : Reachable s → Reachable (insertEmployee e s)
  | delDept (did : Nat) {s : DBState} : Reachable s → Reachable (deleteDepartment did s)
  | delEmp (eid : Nat) {s : DBState} : Reachable s → Reachable (deleteEmployee eid s)
  | insProd (p : Product) {s : DBState} : Reachable s → Reachable (insertProduct p s)
  | insDesc (d : Description) {s : DBState} : Reachable s → Reachable (insertDescription d s)
  | delProd (pid : Nat) {s : DBState} : Reachable s → Reachable (deleteProduct pid s)
  | delDesc (did : Nat) {s : DBState} : Reachable s → Reachable (deleteDescription did s)
  | insStud (st : Student) {s : DBState} : Reachable s → Reachable (insertStudent st s)
  | insCourse (c : Course) {s : DBState} : Reachable s → Reachable (insertCourse c s)
  | delStud (sid : Nat) {s : DBState} : Reachable s → Reachable (deleteStudent sid s)
  | delCourse (cid : Nat) {s : DBState} : Reachable s → Reachable (deleteCourse cid s)
  | addCS (cid sid : Nat) {s : DBState} : Reachable s → Reachable (addCourseStudent cid sid s)
  | remCS (cid sid : Nat) {s : DBState} : Reachable s → Reachable (removeCourseStudent cid sid s)

/-- Relational field names declared on Employee: models.py line 7 declares
its single relational field, named `department`. -/
def employeeRelationNames : List String := ["department"]

/-- The string passed to `select_related` at models.py line 9. -/
def employeesSelectRelatedArg : String := "category"

/-- Modelled from the spec: the FieldError the framework raises when
`select_related` names a field that is not a relational field of the
model. -/
def fieldError (arg : String) : String :=
  "FieldError: Invalid field name given in select_related: " ++ arg

/-- Embedding of models.py line 9,
`employees = Employee.objects.select_related('category')`, evaluated
against a database state.  Modelled from the spec: `select_related`
evaluation runs one SQL query joining the named relation and pairs each
Employee row with the related row, after the framework checks the name
against the model's relational fields (raising FieldError otherwise). -/
def employees (s : DBState) : Except String (List (Employee × Department)) :=
  if employeeRelationNames.contains employeesSelectRelatedArg then
    Except.ok (s.employees.filterMap (fun e =>
      (s.departments.find? (fun d => d.id == e.department_id)).map (fun d => (e, d))))
  else
    Except.error (fieldError employeesSelectRelatedArg)

/-- Relational field names declared on Description: models.py line 15
declares its single relational field, named `product`. -/
def descriptionRelationNames : List String := ["product"]

/-- The string passed to `select_related` at models.py line 17. -/
def productDescriptionSelectRelatedArg : String := "product"

/-- Embedding of models.py line 17,
`product_description = Description.objects.select_related('product')`,
evaluated against a database state; same modelled `select_related`
semantics as for `employees`. -/
def product_description (s : DBState) : Except String (List (Description × Product)) :=
  if descriptionRelationNames.contains productDescriptionSelectRelatedArg then
    Except.ok (s.descriptions.filterMap (fun d =>
      (s.products.find? (fun p => p.id == d.product_id)).map (fun p => (d, p))))
  else
    Except.error (fieldError productDescriptionSelectRelatedArg)

/-- Modelled from the spec: a `select_related` queryset executes as a
single joined SQL query, however many rows match. -/
def selectRelatedQueryCount : Nat := 1

/-- Modelled from the spec: a `prefetch_related` queryset executes the
main query plus one batched query per listed lookup; models.py line 26
lists one lookup, so two queries in total, however many Courses exist. -/
def prefetchRelatedQueryCount : Nat := 2

/-- The student ids associated to one Course, read directly through the
join relation backing `Course.students`. -/
def courseStudentIds (s : DBState) (cid : Nat) : List Nat :=
  (s.course_students.filter (fun pr => pr.fst == cid)).map Prod.snd

/-- Looking a Student row up by primary key. -/
def resolveStudent (s : DBState) (sid : Nat) : Option Student :=
  s.students.find? (fun st => st.id == sid)

/-- The Students of one Course obtained through the plain relation
(`course.students.all()`): one query against the join relation per
course, each id resolved to its Student row. -/
def courseStudentRows (s : DBState) (cid : Nat) : List Student :=
  (courseStudentIds s cid).filterMap (resolveStudent s)

/-- Modelled from the spec: the second, batched query that
`prefetch_related('students')` issues — all join rows whose course id is
among the fetched Courses' ids. -/
def prefetchedPairs (s : DBState) : List (Nat × Nat) :=
  s.course_students.filter (fun pr => decide (pr.fst ∈ s.courses.map Course.id))

/-- The Students of one Course as grouped in memory from the batched
prefetch query. -/
def prefetchedStudentRows (s : DBState) (cid : Nat) : List Student :=
  (((prefetchedPairs s).filter (fun pr => pr.fst == cid)).map Prod.snd).filterMap
    (resolveStudent s)

/-- Embedding of models.py line 26,
`students = Course.objects.prefetch_related('students')`, evaluated
against a database state: every Course paired with its prefetched
Students. -/
def students (s : DBState) : List (Course × List Student) :=
  s.courses.map (fun c => (c, prefetchedStudentRows s c.id))

/-- Modelled from the spec: the keyword arguments the framework's
many-to-many field constructor accepts (its own named parameters plus the
ones every field accepts).  `on_delete` is not among them: it is a
parameter of the foreign-key constructor only. -/
def manyToManyFieldKwargNames : List String :=
  ["verbose_name", "name", "related_name", "related_query_name",
   "limit_choices_to", "symmetrical", "through", "through_fields",
   "db_constraint", "db_table", "swappable", "primary_key", "unique",
   "blank", "null", "db_index", "default", "editable", "serialize",
   "choices", "help_text", "db_column", "db_tablespace", "validators",
   "error_messages"]

/-- Modelled from the spec: constructing a many-to-many field; an
unexpected keyword argument raises TypeError. -/
def manyToManyField (kwargs : List String) : Except String Unit :=
  match kwargs.find? (fun k => !(manyToManyFieldKwargNames.contains k)) with
  | some k => Except.error ("TypeError: Field.__init__() got an unexpected keyword argument " ++ k)
  | none => Except.ok ()

/-- The keyword-argument names written at models.py line 24 for
`Course.students = models.ManyToManyField(Student, on_delete=..., related_name=...)`. -/
def courseStudentsFieldKwargs : List String := ["on_delete", "related_name"]

/-- Loading the module `practice.models`: the class bodies run top to
bottom; constructing `Course.students` is the first field constructor that
can fail, and an error there aborts the import before the `students`
queryset line is reached. -/
def loadModelsModule : Except String Unit :=
  match manyToManyField courseStudentsFieldKwargs with
  | Except.error e => Except.error e
  | Except.ok _ => Except.ok ()

/-- The database-enforced well-formedness of a persisted state: distinct
Department primary keys; every Employee's foreign key resolves; distinct
Product primary keys; every Description's one-to-one key resolves and is
unique among Descriptions; the many-to-many join relation holds each
pairing at most once. -/
def dbInv (s : DBState) : Prop :=
  (s.departments.map Department.id).Nodup ∧
  (∀ e ∈ s.employees, ∃ d ∈ s.departments, d.id = e.department_id) ∧
  (s.products.map Product.id).Nodup ∧
  (∀ d ∈ s.descriptions, ∃ p ∈ s.products, p.id = d.product_id) ∧
  (s.descriptions.map Description.product_id).Nodup ∧
  s.course_students.Nodup

theorem nodup_map_filter {α β : Type} (f : α → β) (p : α → Bool) {l : List α}
    (h : (l.map f).Nodup) : ((l.filter p).map f).Nodup :=
  List.Nodup.sublist ((l.filter_sublist).map f) h

theorem dbInv_insertDepartment (d : Department) (s : DBState) (h : dbInv s) :
    dbInv (insertDepartment d s) := by
  obtain ⟨h1, h2, h3, h4, h5, h6⟩ := h
  unfold insertDepartment
  split
  next hg =>
    refine ⟨?_, ?_, h3, h4, h5, h6⟩
    · simp only [List.map_cons, List.nodup_cons]
      refine ⟨fun hmem => ?_, h1⟩
      obtain ⟨x, hx, hid⟩ := List.mem_map.mp hmem
      exact hg x hx hid
    · intro e he
      obtain ⟨dd, hdd, hid⟩ := h2 e he
      exact ⟨dd, List.mem_cons_of_mem _ hdd, hid⟩
  next => exact ⟨h1, h2, h3, h4, h5, h6⟩

theorem dbInv_insertEmployee (e : Employee) (s : DBState) (h : dbInv s) :
    dbInv (insertEmployee e s) := by
  obtain ⟨h1, h2, h3, h4, h5, h6⟩ := h
  unfold insertEmployee
  split
  next hg =>
    refine ⟨h1, ?_, h3, h4, h5, h6⟩
    intro x hx
    rcases List.mem_cons.mp hx with hx | hx
    · subst hx; exact hg.2
    · exact h2 x hx
  next => exact ⟨h1, h2, h3, h4, h5, h6⟩

theorem dbInv_deleteDepartment (did : Nat) (s : DBState) (h : dbInv s) :
    dbInv (deleteDepartment did s) := by
  obtain ⟨h1, h2, h3, h4, h5, h6⟩ := h
  refine ⟨nodup_map_filter _ _ h1, ?_, h3, h4, h5, h6⟩
  intro e he
  have he' : e ∈ s.employees.filter (fun x => x.department_id != did) := he
  obtain ⟨hmem, hpred⟩ := List.mem_filter.mp he'
  obtain ⟨dd, hdd, hid⟩ := h2 e hmem
  refine ⟨dd, List.mem_filter.mpr ⟨hdd, ?_⟩, hid⟩
  show (dd.id != did) = true
  rw [hid]
  exact hpred

theorem dbInv_deleteEmployee (eid : Nat) (s : DBState) (h : dbInv s) :
    dbInv (deleteEmployee eid s) := by
  obtain ⟨h1, h2, h3, h4, h5, h6⟩ := h
  refine ⟨h1, ?_, h3, h4, h5, h6⟩
  intro e he
  have he' : e ∈ s.employees.filter (fun x => x.id != eid) := he
  exact h2 e (List.mem_filter.mp he').1

theorem dbInv_insertProduct (p : Product) (s : DBState) (h : dbInv s) :
    dbInv (insertProduct p s) := by
  obtain ⟨h1, h2, h3, h4, h5, h6⟩ := h
  unfold insertProduct
  split
  next hg =>
    refine ⟨h1, h2, ?_, ?_, h5, h6⟩
    · simp only [List.map_cons, List.nodup_cons]
      refine ⟨fun hmem => ?_, h3⟩
      obtain ⟨x, hx, hid⟩ := List.mem_map.mp hmem
      exact hg x hx hid
    · intro d hd
      obtain ⟨pp, hpp, hid⟩ := h4 d hd
      exact ⟨pp, List.mem_cons_of_mem _ hpp, hid⟩
  next => exact ⟨h1, h2, h3, h4, h5, h6⟩

theorem dbInv_insertDescription (d : Description) (s : DBState) (h : dbInv s) :
    dbInv (insertDescription d s) := by
  obtain ⟨h1, h2, h3, h4, h5, h6⟩ := h
  unfold insertDescription
  split
  next hg =>
    refine ⟨h1, h2, h3, ?_, ?_, h6⟩
    · intro x hx
      rcases List.mem_cons.mp hx with hx | hx
      · subst hx; exact hg.2.1
      · exact h4 x hx
    · simp only [List.map_cons, List.nodup_cons]
      refine ⟨fun hmem => ?_, h5⟩
      obtain ⟨x, hx, hid⟩ := List.mem_map.mp hmem
      exact hg.2.2 x hx hid
  next => exact ⟨h1, h2, h3, h4, h5, h6⟩

theorem dbInv_deleteProduct (pid : Nat) (s : DBState) (h : dbInv s) :
    dbInv (deleteProduct pid s) := by
  obtain ⟨h1, h2, h3, h4, h5, h6⟩ := h
  refine ⟨h1, h2, nodup_map_filter _ _ h3, ?_, nodup_map_filter _ _ h5, h6⟩
  intro d hd
  have hd' : d ∈ s.descriptions.filter (fun x => x.product_id != pid) := hd
  obtain ⟨hmem, hpred⟩ := List.mem_filter.mp hd'
  obtain ⟨pp, hpp, hid⟩ := h4 d hmem
  refine ⟨pp, List.mem_filter.mpr ⟨hpp, ?_⟩, hid⟩
  show (pp.id != pid) = true
  rw [hid]
  exact hpred

theorem dbInv_deleteDescription (did : Nat) (s : DBState) (h : dbInv s) :
    dbInv (deleteDescription did s) := by
  obtain ⟨h1, h2, h3, h4, h5, h6⟩ := h
  refine ⟨h1, h2, h3, ?_, nodup_map_filter _ _ h5, h6⟩
  intro d hd
  have hd' : d ∈ s.descriptions.filter (fun x => x.id != did) := hd
  exact h4 d (List.mem_filter.mp hd').1

theorem dbInv_insertStudent (st : Student) (s : DBState) (h : dbInv s) :
    dbInv (insertStudent st s) := by
  obtain ⟨h1, h2, h3, h4, h5, h6⟩ := h
  unfold insertStudent
  split
  next => exact ⟨h1, h2, h3, h4, h5, h6⟩
  next => exact ⟨h1, h2, h3, h4, h5, h6⟩

theorem dbInv_insertCourse (c : Course) (s : DBState) (h : dbInv s) :
    dbInv (insertCourse c s) := by
  obtain ⟨h1, h2, h3, h4, h5, h6⟩ := h
  unfold insertCourse
  split
  next => exact ⟨h1, h2, h3, h4, h5, h6⟩
  next => exact ⟨h1, h2, h3, h4, h5, h6⟩

theorem dbInv_deleteStudent (sid : Nat) (s : DBState) (h : dbInv s) :
    dbInv (deleteStudent sid s) := by
  obtain ⟨h1, h2, h3, h4, h5, h6⟩ := h
  exact ⟨h1, h2, h3, h4, h5,
    List.Nodup.sublist (s.course_students.filter_sublist) h6⟩

theorem dbInv_deleteCourse (cid : Nat) (s : DBState) (h : dbInv s) :
    dbInv (deleteCourse cid s) := by
  obtain ⟨h1, h2, h3, h4, h5, h6⟩ := h
  exact ⟨h1, h2, h3, h4, h5,
    List.Nodup.sublist (s.course_students.filter_sublist) h6⟩

theorem dbInv_addCourseStudent (cid sid : Nat) (s : DBState) (h : dbInv s) :
    dbInv (addCourseStudent cid sid s) := by
  obtain ⟨h1, h2, h3, h4, h5, h6⟩ := h
  unfold addCourseStudent
  split
  next hg =>
    exact ⟨h1, h2, h3, h4, h5, List.nodup_cons.mpr ⟨hg.2.2, h6⟩⟩
  next => exact ⟨h1, h2, h3, h4, h5, h6⟩

theorem dbInv_removeCourseStudent (cid sid : Nat) (s : DBState) (h : dbInv s) :
    dbInv (removeCourseStudent cid sid s) := by
  obtain ⟨h1, h2, h3, h4, h5, h6⟩ := h
  exact ⟨h1, h2, h3, h4, h5,
    List.Nodup.sublist (s.course_students.filter_sublist) h6⟩

/-- Every reachable persisted state satisfies the database-enforced
well-formedness conditions. -/
theorem reachable_dbInv {s : DBState} (h : Reachable s) : dbInv s := by
  induction h with
  | init => unfold dbInv; decide
  | insDept d _ ih => exact dbInv_insertDepartment d _ ih
  | insEmp e _ ih => exact dbInv_insertEmployee e _ ih
  | delDept did _ ih => exact dbInv_deleteDepartment did _ ih
  | delEmp eid _ ih => exact dbInv_deleteEmployee eid _ ih
  | insProd p _ ih => exact dbInv_insertProduct p _ ih
  | insDesc d _ ih => exact dbInv_insertDescription d _ ih
  | delProd pid _ ih => exact dbInv_deleteProduct pid _ ih
  | delDesc did _ ih => exact dbInv_deleteDescription did _ ih
  | insStud st _ ih => exact dbInv_insertStudent st _ ih
  | insCourse c _ ih => exact dbInv_insertCourse c _ ih
  | delStud sid _ ih => exact dbInv_deleteStudent sid _ ih
  | delCourse cid _ ih => exact dbInv_deleteCourse cid _ ih
  | addCS cid sid _ ih => exact dbInv_addCourseStudent cid sid _ ih
  | remCS cid sid _ ih => exact dbInv_removeCourseStudent cid sid _ ih

theorem countP_key_le_one {α : Type} (f : α → Nat) {l : List α}
    (hn : (l.map f).Nodup) (k : Nat) :
    l.countP (fun x => f x == k) ≤ 1 := by
  induction l with
  | nil => simp
  | cons a t ih =>
    simp only [List.map_cons, List.nodup_cons] at hn
    by_cases hk : f a = k
    · rw [List.countP_cons_of_pos _ _ (by simp [hk])]
      have h0 : t.countP (fun x => f x == k) = 0 := by
        apply List.countP_eq_zero.mpr
        intro x hx hpx
        have hfx : f x = k := by simpa using hpx
        exact hn.1 (by rw [hk, ← hfx]; exact List.mem_map_of_mem f hx)
      omega
    · rw [List.countP_cons_of_neg _ _ (by simp [hk])]
      exact ih hn.2

theorem countP_key_eq_one {α : Type} (f : α → Nat) {l : List α} {k : Nat}
    (hn : (l.map f).Nodup) (hex : ∃ x ∈ l, f x = k) :
    l.countP (fun x => f x == k) = 1 := by
  have hle := countP_key_le_one f hn k
  have hpos : 0 < l.countP (fun x => f x == k) := by
    apply List.countP_pos_iff.mpr
    obtain ⟨x, hx, hfx⟩ := hex
    exact ⟨x, hx, by simp [hfx]⟩
  omega

/-- A concrete reachable database with one Department (pk 1, "hr") and one
Employee (pk 1) referencing it, used to evaluate the theorems. -/
def deptDB : DBState :=
  insertEmployee ⟨1, "ann", 1⟩ (insertDepartment ⟨1, "hr"⟩ emptyDB)

theorem deptDB_reachable : Reachable deptDB :=
  Reachable.insEmp _ (Reachable.insDept _ Reachable.init)

/-- A concrete reachable database with one Product (pk 1) and its linked
Description (pk 1). -/
def productDB : DBState :=
  insertDescription ⟨1, "ink pen", 1⟩ (insertProduct ⟨1, "pen"⟩ emptyDB)

theorem productDB_reachable : Reachable productDB :=
  Reachable.insDesc _ (Reachable.insProd _ Reachable.init)

/-- A concrete reachable database with one Product (pk 1) and no
Description at all. -/
def productOnlyDB : DBState := insertProduct ⟨1, "pen"⟩ emptyDB

theorem productOnlyDB_reachable : Reachable productOnlyDB :=
  Reachable.insProd _ Reachable.init

/-- A concrete reachable database with one Course (pk 1) holding two
Students (pk 1 and pk 2) in its many-to-many set. -/
def courseDB : DBState :=
  addCourseStudent 1 2 (addCourseStudent 1 1
    (insertStudent ⟨2, "bea"⟩ (insertStudent ⟨1, "abe"⟩
      (insertCourse ⟨1, "osa"⟩ emptyDB))))

theorem courseDB_reachable : Reachable courseDB :=
  Reachable.addCS _ _ (Reachable.addCS _ _
    (Reachable.insStud _ (Reachable.insStud _
      (Reachable.insCourse _ Reachable.init))))

/-- The one-to-one cascade claim exactly as stated: for a linked
Product/Description pair in a reachable state, deleting the Description
deletes the Product (no row with that id survives), and deleting the
Product deletes the Description. -/
def oneToOneCascadeBothWaysClaim : Prop :=
  ∀ s : DBState, Reachable s →
    ∀ d ∈ s.descriptions, ∀ p ∈ s.products, d.product_id = p.id →
      ((deleteDescription d.id s).products.all (fun q => q.id != p.id)) = true ∧
      ((deleteProduct p.id s).descriptions.all (fun q => q.id != d.id)) = true

/-- C1 counterexample: in the reachable state `productDB`, Product pk 1 and
Description pk 1 are linked, yet after deleting the Description the
Product is still present — `on_delete=CASCADE` sits on
`Description.product` (models.py line 15), so the cascade runs from
Product to Description only; the claimed Description-to-Product direction
fails. -/
theorem oneToOneCascade_counterexample : ¬ oneToOneCascadeBothWaysClaim := by
  intro hclaim
  have h := hclaim productDB productDB_reachable
    ⟨1, "ink pen", 1⟩ (by decide) ⟨1, "pen"⟩ (by decide) (by decide)
  exact absurd h.1 (by decide)

/-- C1 (amended): deleting a Product cascades to delete the Description
referencing it, while deleting a Description leaves the Product table
unchanged — the cascade acts from Product to Description only. -/
theorem product_cascade_one_way (s : DBState) (pid did : Nat) :
    ((deleteProduct pid s).descriptions.all (fun d => d.product_id != pid)) = true ∧
    (deleteDescription did s).products = s.products := by
  refine ⟨List.all_eq_true.mpr ?_, rfl⟩
  intro d hd
  have hd' : d ∈ s.descriptions.filter (fun x => x.product_id != pid) := hd
  exact (List.mem_filter.mp hd').2

/-- C2: evaluating the `employees` queryset raises FieldError on every
database state — models.py line 9 passes the name `category` to
`select_related`, and Employee's only relational field is `department`,
so the framework rejects the query instead of returning any joined
rows. -/
theorem employees_raises_fieldError (s : DBState) :
    employees s = Except.error (fieldError employeesSelectRelatedArg) := rfl

/-- C3: deleting a Department removes exactly the Employees whose foreign
key references it: an Employee survives the delete if and only if it was
present before and does not reference the deleted Department, so no
referencing Employee remains. -/
theorem deleteDepartment_cascades_employees (s : DBState) (did : Nat) (e : Employee) :
    e ∈ (deleteDepartment did s).employees ↔ e ∈ s.employees ∧ e.department_id ≠ did := by
  constructor
  · intro he
    have he' : e ∈ s.employees.filter (fun x => x.department_id != did) := he
    obtain ⟨hm, hp⟩ := List.mem_filter.mp he'
    exact ⟨hm, by simpa using hp⟩
  · intro h
    exact List.mem_filter.mpr ⟨h.1, by simpa using h.2⟩

/-- C10: deleting an Employee leaves the Department table exactly as it
was — `on_delete=CASCADE` sits on `Employee.department` (models.py line
7), so the cascade runs from Department to Employee only and an
Employee's deletion never touches its Department. -/
theorem deleteEmployee_preserves_departments (s : DBState) (eid : Nat) :
    (deleteEmployee eid s).departments = s.departments := rfl

/-- The Product/Description exactly-one claim exactly as stated, over
reachable persisted states: every Product is referenced by exactly one
Description and every Description references exactly one Product. -/
def productDescriptionExactlyOneClaim : Prop :=
  ∀ s : DBState, Reachable s →
    (∀ p ∈ s.products, s.descriptions.countP (fun d => d.product_id == p.id) = 1) ∧
    (∀ d ∈ s.descriptions, s.products.countP (fun p => p.id == d.product_id) = 1)

/-- C4 counterexample: `productOnlyDB` is reachable (create one Product
and stop) and holds Product pk 1 with no Description at all, so "each
Product is referenced by exactly one Description" fails — nothing forces
a Description to exist for a Product. -/
theorem productDescription_counterexample : ¬ productDescriptionExactlyOneClaim := by
  intro hclaim
  have h := (hclaim productOnlyDB productOnlyDB_reachable).1 ⟨1, "pen"⟩ (by decide)
  exact absurd h (by decide)

/-- C4 (amended): in every reachable persisted state, each Description
references exactly one existing Product, and each Product is referenced
by at most one Description (the one-to-one unique constraint); a Product
with no Description is possible. -/
theorem description_product_link {s : DBState} (hs : Reachable s) :
    (∀ d ∈ s.descriptions, s.products.countP (fun p => p.id == d.product_id) = 1) ∧
    (∀ p ∈ s.products, s.descriptions.countP (fun d => d.product_id == p.id) ≤ 1) := by
  obtain ⟨_, _, h3, h4, h5, _⟩ := reachable_dbInv hs
  constructor
  · intro d hd
    exact countP_key_eq_one Product.id h3 (h4 d hd)
  · intro p _
    exact countP_key_le_one Description.product_id h5 p.id

/-- C4 witness: the amended statement evaluated on the concrete reachable
state `productDB`. -/
theorem description_product_link_witness :
    (∀ d ∈ productDB.descriptions,
      productDB.products.countP (fun p => p.id == d.product_id) = 1) ∧
    (∀ p ∈ productDB.products,
      productDB.descriptions.countP (fun d => d.product_id == p.id) ≤ 1) :=
  description_product_link productDB_reachable

/-- C5: importing `practice.models` fails with TypeError — the class body
of Course passes `on_delete` to the many-to-many field constructor
(models.py line 24), which rejects it — so execution never reaches
models.py line 26 and the `students` queryset is never constructed, let
alone evaluated in two queries. -/
theorem loadModelsModule_fails :
    loadModelsModule = Except.error
      "TypeError: Field.__init__() got an unexpected keyword argument on_delete" := rfl

/-- C6: in every reachable persisted state, each Employee's foreign key
resolves to exactly one Department: the referenced Department exists and
is unique, and every operation preserves this. -/
theorem employee_department_exactly_one {s : DBState} (hs : Reachable s)
    (e : Employee) (he : e ∈ s.employees) :
    s.departments.countP (fun d => d.id == e.department_id) = 1 := by
  obtain ⟨h1, h2, _, _, _, _⟩ := reachable_dbInv hs
  exact countP_key_eq_one Department.id h1 (h2 e he)

/-- C6 witness: the statement evaluated on the concrete reachable state
`deptDB` at its single Employee. -/
theorem employee_department_exactly_one_witness :
    deptDB.departments.countP
      (fun d => d.id == (Employee.mk 1 "ann" 1).department_id) = 1 :=
  employee_department_exactly_one deptDB_reachable (Employee.mk 1 "ann" 1) (by decide)

/-- C9: constructing `Course.students` always fails: the keyword
arguments written at models.py line 24 include `on_delete`, which the
many-to-many field constructor does not accept, so the model class — and
with it the module — cannot be built. -/
theorem courseStudentsField_rejects_on_delete :
    manyToManyField courseStudentsFieldKwargs = Except.error
      "TypeError: Field.__init__() got an unexpected keyword argument on_delete" := rfl

/-- C7: for every Course of a reachable persisted state, the associated
Students contain no duplicate row, and the `students` prefetching query
groups exactly the same rows as the plain relation, so the property holds
regardless of the query strategy used. -/
theorem course_students_no_duplicates {s : DBState} (hs : Reachable s)
    (c : Course) (hc : c ∈ s.courses) :
    (courseStudentRows s c.id).Nodup ∧
    prefetchedStudentRows s c.id = courseStudentRows s c.id := by
  obtain ⟨_, _, _, _, _, h6⟩ := reachable_dbInv hs
  have hids : (courseStudentIds s c.id).Nodup := by
    apply List.Nodup.map_on
    · intro x hx y hy hxy
      have hxc : x.fst = c.id := by simpa using (List.mem_filter.mp hx).2
      have hyc : y.fst = c.id := by simpa using (List.mem_filter.mp hy).2
      exact Prod.ext (hxc.trans hyc.symm) hxy
    · exact List.Nodup.sublist (s.course_students.filter_sublist) h6
  refine ⟨?_, ?_⟩
  · apply List.Nodup.filterMap ?_ hids
    intro a a' b hb hb'
    rw [Option.mem_def] at hb hb'
    unfold resolveStudent at hb hb'
    have ha := List.find?_some hb
    have ha' := List.find?_some hb'
    have e1 : b.id = a := by simpa using ha
    have e2 : b.id = a' := by simpa using ha'
    exact e1.symm.trans e2
  · unfold prefetchedStudentRows courseStudentRows courseStudentIds prefetchedPairs
    congr 1
    congr 1
    rw [List.filter_filter]
    apply List.filter_congr
    intro x hx
    cases hxc : x.fst == c.id with
    | true =>
      have hx1 : x.fst = c.id := by simpa using hxc
      have hmem : x.fst ∈ s.courses.map Course.id := by
        rw [hx1]; exact List.mem_map_of_mem Course.id hc
      simp [hmem]
    | false => simp

/-- C7 witness: the statement evaluated on the concrete reachable state
`courseDB` at its single Course. -/
theorem course_students_no_duplicates_witness :
    (courseStudentRows courseDB (Course.mk 1 "osa").id).Nodup ∧
    prefetchedStudentRows courseDB (Course.mk 1 "osa").id =
      courseStudentRows courseDB (Course.mk 1 "osa").id :=
  course_students_no_duplicates courseDB_reachable (Course.mk 1 "osa") (by decide)

theorem join_map_fst {prods : List Product} {descs : List Description}
    (h : ∀ d ∈ descs, ∃ p ∈ prods, p.id = d.product_id) :
    (descs.filterMap (fun d =>
      (prods.find? (fun p => p.id == d.product_id)).map (fun p => (d, p)))).map Prod.fst
      = descs := by
  induction descs with
  | nil => rfl
  | cons a t ih =>
    have ih' := ih (fun d hd => h d (List.mem_cons_of_mem a hd))
    obtain ⟨p, hp, hpid⟩ := h a (List.mem_cons_self a t)
    cases hcase : prods.find? (fun pp => pp.id == a.product_id) with
    | none =>
      exfalso
      have hnone := List.find?_eq_none.mp hcase p hp
      simp [hpid] at hnone
    | some q =>
      simp only [List.filterMap_cons, hcase, Option.map_some', List.map_cons, ih']

/-- C8: in every reachable persisted state, evaluating the
`product_description` queryset succeeds and returns every Description
paired with the Product its one-to-one key references, in a single joined
query. -/
theorem product_description_single_join {s : DBState} (hs : Reachable s) :
    ∃ rows, product_description s = Except.ok rows ∧
      rows.map Prod.fst = s.descriptions ∧
      (∀ pr ∈ rows, pr.snd ∈ s.products ∧ pr.snd.id = pr.fst.product_id) ∧
      selectRelatedQueryCount = 1 := by
  obtain ⟨_, _, _, h4, _, _⟩ := reachable_dbInv hs
  refine ⟨_, rfl, join_map_fst h4, ?_, rfl⟩
  intro pr hpr
  obtain ⟨d, _, hfd⟩ := List.mem_filterMap.mp hpr
  obtain ⟨q, hq, hpr_eq⟩ := Option.map_eq_some'.mp hfd
  cases hpr_eq
  refine ⟨List.mem_of_find?_eq_some hq, ?_⟩
  simpa using List.find?_some hq

/-- C8 witness: the statement evaluated on the concrete reachable state
`productDB`. -/
theorem product_description_single_join_witness :
    ∃ rows, product_description productDB = Except.ok rows ∧
      rows.map Prod.fst = productDB.descriptions ∧
      (∀ pr ∈ rows, pr.snd ∈ productDB.products ∧ pr.snd.id = pr.fst.product_id) ∧
      selectRelatedQueryCount = 1 :=
  product_description_single_join productDB_reachable

end PracticeModels
